import Mathlib

/-!
Shallow embedding of the packet framing and payload encoding subsystem of
the cherryrgb keyboard protocol library (src/cherryrgb/src/models.rs and
src/cherryrgb/src/lib.rs).  Machine bytes are modelled as `Nat` values
(< 256 where it matters), fixed byte arrays as `List Nat`, fallible Rust
functions returning `anyhow::Result` as `Except String`.
-/

namespace CherryRgb

/-- Modelled from the spec: the repository module `extensions.rs` defining
`OwnRGB8` is not under src/.  Per §3 of the spec, a Color is an RGB triple
(red, green, blue; each 0-255), encoded on the wire in R,G,B byte order,
default value (0,0,0). -/
structure OwnRGB8 where
  r : Nat
  g : Nat
  b : Nat
  deriving Repr, DecidableEq

/-- Modelled from the spec: wire encoding of a Color in R,G,B byte order. -/
def OwnRGB8.toVec (c : OwnRGB8) : List Nat := [c.r, c.g, c.b]

/-- Modelled from the spec: default Color is (0,0,0), "off". -/
def OwnRGB8.default : OwnRGB8 := ⟨0, 0, 0⟩

/-- models.rs `enum Command` -/
inductive Command where
  | TransactionStart
  | TransactionEnd
  | Unknown3
  | Unknown5
  | SetAnimation
  | Unknown7
  | SetCustomLED
  | Unknown1B
  deriving Repr, DecidableEq

/-- numeric wire codes of `Command` per the `repr(u8)` discriminants -/
def Command.code : Command → Nat
  | .TransactionStart => 0x01
  | .TransactionEnd => 0x02
  | .Unknown3 => 0x03
  | .Unknown5 => 0x05
  | .SetAnimation => 0x06
  | .Unknown7 => 0x07
  | .SetCustomLED => 0x0B
  | .Unknown1B => 0x1B

/-- models.rs `enum UnknownByte` -/
inductive UnknownByte where
  | Zero
  | One
  | Two
  | Three
  deriving Repr, DecidableEq

def UnknownByte.code : UnknownByte → Nat
  | .Zero => 0
  | .One => 1
  | .Two => 2
  | .Three => 3

/-- models.rs `enum LightingMode` -/
inductive LightingMode where
  | Wave
  | Spectrum
  | Breathing
  | Static
  | Radar
  | Vortex
  | Fire
  | Stars
  | Rain
  | Custom
  | Rolling
  | Curve
  | WaveMid
  | Scan
  | Radiation
  | Ripples
  | SingleKey
  deriving Repr, DecidableEq

def LightingMode.code : LightingMode → Nat
  | .Wave => 0x00
  | .Spectrum => 0x01
  | .Breathing => 0x02
  | .Static => 0x03
  | .Radar => 0x04
  | .Vortex => 0x05
  | .Fire => 0x06
  | .Stars => 0x07
  | .Rain => 0x0B
  | .Custom => 0x08
  | .Rolling => 0x0A
  | .Curve => 0x0C
  | .WaveMid => 0x0E
  | .Scan => 0x0F
  | .Radiation => 0x12
  | .Ripples => 0x13
  | .SingleKey => 0x15

/-- models.rs `impl FromStr for LightingMode` (exact string match) -/
def LightingMode.fromStr (s : String) : Except String LightingMode :=
  match s with
  | "wave" => .ok .Wave
  | "spectrum" => .ok .Spectrum
  | "breathing" => .ok .Breathing
  | "static" => .ok .Static
  | "radar" => .ok .Radar
  | "vortex" => .ok .Vortex
  | "fire" => .ok .Fire
  | "stars" => .ok .Stars
  | "rain" => .ok .Rain
  | "custom" => .ok .Custom
  | "rolling" => .ok .Rolling
  | "curve" => .ok .Curve
  | "wave_mid" => .ok .WaveMid
  | "scan" => .ok .Scan
  | "radiation" => .ok .Radiation
  | "ripples" => .ok .Ripples
  | "single_key" => .ok .SingleKey
  | _ => .error ("Invalid mode supplied: " ++ s)

/-- models.rs `enum Speed` -/
inductive Speed where
  | VeryFast
  | Fast
  | Medium
  | Slow
  | VerySlow
  deriving Repr, DecidableEq

def Speed.code : Speed → Nat
  | .VeryFast => 0
  | .Fast => 1
  | .Medium => 2
  | .Slow => 3
  | .VerySlow => 4

/-- models.rs `impl FromStr for Speed` (exact string match) -/
def Speed.fromStr (s : String) : Except String Speed :=
  match s with
  | "very_slow" => .ok .VerySlow
  | "slow" => .ok .Slow
  | "medium" => .ok .Medium
  | "fast" => .ok .Fast
  | "very_fast" => .ok .VeryFast
  | _ => .error ("Invalid mode supplied: " ++ s)

/-- models.rs `enum Brightness` -/
inductive Brightness where
  | Off
  | Low
  | Medium
  | High
  | Full
  deriving Repr, DecidableEq

def Brightness.code : Brightness → Nat
  | .Off => 0
  | .Low => 1
  | .Medium => 2
  | .High => 3
  | .Full => 4

/-- models.rs `impl FromStr for Brightness` (exact string match) -/
def Brightness.fromStr (s : String) : Except String Brightness :=
  match s with
  | "off" => .ok .Off
  | "low" => .ok .Low
  | "medium" => .ok .Medium
  | "high" => .ok .High
  | "full" => .ok .Full
  | _ => .error ("Invalid mode supplied: " ++ s)

/-- lib.rs `calc_checksum`: sum of the data bytes, each widened to u32, plus
the command code, reduced with `& 0xFF`.  The u32 summation is modelled with
a reduction modulo 2^32 at each step, mirroring machine arithmetic. -/
def calc_checksum (command : Command) (data : List Nat) : Nat :=
  ((data.foldl (fun acc b => (acc + b) % 4294967296) 0 + command.code)
    % 4294967296) &&& 0xFF

/-- models.rs `struct Packet` (the leading magic byte 0x04 is implicit in
the binrw attribute `brw(magic = 4u8)` and emitted by serialization) -/
structure Packet where
  checksum : Nat
  unknown : UnknownByte
  command : Command
  data : List Nat
  deriving Repr, DecidableEq

/-- models.rs `Packet::new`: checksum 0 and a zero-filled 60-byte region -/
def Packet.new (unknown : UnknownByte) (command : Command) : Packet :=
  { checksum := 0, unknown := unknown, command := command,
    data := List.replicate 60 0 }

/-- models.rs `Packet::set_payload` acting on `&mut self` and returning a
`Result`: modelled as returning the updated packet together with the
outcome; on error the packet is returned unchanged (the Rust method
returns before mutating).  The copy loop writes `new_data` over the first
`new_data.len()` cells of `data`, leaving the rest untouched. -/
def Packet.set_payload (p : Packet) (new_data : List Nat) :
    Packet × Except String Unit :=
  if new_data.length > 60 then
    (p, .error "Payload exceeds 60 bytes")
  else
    ({ p with data := new_data ++ p.data.drop new_data.length }, .ok ())

/-- models.rs `Packet::update_checksum` -/
def Packet.update_checksum (p : Packet) : Packet :=
  { p with checksum := calc_checksum p.command p.data }

/-- models.rs `Packet::verify_checksum` -/
def Packet.verify_checksum (p : Packet) : Except String Unit :=
  let calculated := calc_checksum p.command p.data
  if calculated = p.checksum then .ok ()
  else .error "Invalid checksum"

/-- binrw serialization of a Packet: magic | checksum | unknown | command |
data (60 bytes) -/
def Packet.toVec (p : Packet) : List Nat :=
  0x04 :: p.checksum :: p.unknown.code :: p.command.code :: p.data

/-- lib.rs `prepare_packet` -/
def prepare_packet (unknown : UnknownByte) (command : Command)
    (payload : List Nat) : Except String (List Nat) :=
  let packet := Packet.new unknown command
  let res := packet.set_payload payload
  match res.2 with
  | .error e => .error e
  | .ok _ => .ok res.1.update_checksum.toVec

/-- models.rs `struct LedAnimationPayload` -/
structure LedAnimationPayload where
  unknown : List Nat
  mode : LightingMode
  brightness : Brightness
  speed : Speed
  pad : Nat
  rainbow : Nat
  color : OwnRGB8
  deriving Repr, DecidableEq

/-- models.rs `LedAnimationPayload::new` -/
def LedAnimationPayload.new (mode : LightingMode) (brightness : Brightness)
    (speed : Speed) (color : OwnRGB8) (rainbow : Bool) : LedAnimationPayload :=
  { unknown := [0x09, 0x00, 0x00, 0x55, 0x00]
    mode := mode
    brightness := brightness
    speed := speed
    pad := 0
    rainbow := if rainbow then 1 else 0
    color := color }

/-- binrw serialization of `LedAnimationPayload` in declared field order -/
def LedAnimationPayload.toVec (p : LedAnimationPayload) : List Nat :=
  p.unknown ++
    [p.mode.code, p.brightness.code, p.speed.code, p.pad, p.rainbow] ++
    p.color.toVec

/-- models.rs `struct LedCustomPayload`; `data_len` is not a stored field -
on write binrw computes it as `key_leds_data.len()` (`bw(calc = ...)`). -/
structure LedCustomPayload where
  data_offset : Nat
  secondary_keys : Nat
  padding : Nat
  key_leds_data : List Nat
  deriving Repr, DecidableEq

/-- the computed `data_len` field of a `LedCustomPayload` on serialization -/
def LedCustomPayload.data_len (p : LedCustomPayload) : Nat :=
  p.key_leds_data.length

/-- binrw serialization of `LedCustomPayload`:
data_len | data_offset | secondary_keys | padding | key_leds_data -/
def LedCustomPayload.toVec (p : LedCustomPayload) : List Nat :=
  p.data_len :: p.data_offset :: p.secondary_keys :: p.padding ::
    p.key_leds_data

/-- models.rs `struct CustomKeyLeds` -/
structure CustomKeyLeds where
  key_leds : List OwnRGB8
  deriving Repr, DecidableEq

/-- models.rs `impl BinWrite for CustomKeyLeds`: each color in index order -/
def CustomKeyLeds.toVec (s : CustomKeyLeds) : List Nat :=
  (s.key_leds.map OwnRGB8.toVec).flatten

def CustomKeyLeds.CHUNK_SIZE : Nat := 56

def CustomKeyLeds.TOTAL_KEYS : Nat := 126

/-- models.rs `CustomKeyLeds::new`: TOTAL_KEYS default colors -/
def CustomKeyLeds.new : CustomKeyLeds :=
  { key_leds := List.replicate CustomKeyLeds.TOTAL_KEYS OwnRGB8.default }

/-- models.rs `CustomKeyLeds::from_leds` -/
def CustomKeyLeds.from_leds (key_leds : List OwnRGB8) :
    Except String CustomKeyLeds :=
  if key_leds.length > CustomKeyLeds.TOTAL_KEYS then
    .error "Invalid number of key leds"
  else
    .ok { key_leds := key_leds }

/-- models.rs `CustomKeyLeds::set_led`; like `Packet.set_payload`, the
`&mut self` + `Result` signature is modelled by returning the updated state
(errors leave the state unchanged, mirroring the early return). -/
def CustomKeyLeds.set_led (s : CustomKeyLeds) (key_index : Nat)
    (key : OwnRGB8) : Except String CustomKeyLeds :=
  if key_index ≥ s.key_leds.length then
    .error "Key index out of bounds"
  else
    .ok { key_leds := s.key_leds.set key_index key }

/-- Rust `slice::chunks(n)`: pieces of `n` elements, the last piece possibly
shorter; an empty slice yields no pieces.  (`chunks` panics on `n = 0`;
the embedding returns `[]` there, and it is only applied at `n = 56`.) -/
def chunksOf (n : Nat) (l : List Nat) : List (List Nat) :=
  if l = [] ∨ n = 0 then []
  else l.take n :: chunksOf n (l.drop n)
termination_by l.length
decreasing_by
  rename_i h
  push_neg at h
  simp only [List.length_drop]
  have h1 : l.length ≠ 0 := fun hc => h.1 (List.eq_nil_of_length_eq_zero hc)
  omega

/-- the chunk emitted by `get_payloads` at position `index` for `chunk` -/
def mkCustomPayload (index : Nat) (chunk : List Nat) : LedCustomPayload :=
  let start := index * CustomKeyLeds.CHUNK_SIZE
  if start > 0xFF then
    { data_offset := start % 0x100, secondary_keys := 0x01, padding := 0x00,
      key_leds_data := chunk }
  else
    { data_offset := start, secondary_keys := 0x00, padding := 0x00,
      key_leds_data := chunk }

/-- models.rs `CustomKeyLeds::get_payloads` -/
def CustomKeyLeds.get_payloads (s : CustomKeyLeds) :
    Except String (List LedCustomPayload) :=
  let key_data := s.toVec
  .ok ((chunksOf CustomKeyLeds.CHUNK_SIZE key_data).enum.map
    (fun p => mkCustomPayload p.1 p.2))

/-- the chunk list returned by `get_payloads` (which never errors) -/
def CustomKeyLeds.payloads (s : CustomKeyLeds) : List LedCustomPayload :=
  match s.get_payloads with
  | .ok l => l
  | .error _ => []

/-- one packet handed to the transport by lib.rs `send_payload` -/
structure SentPacket where
  unknown : UnknownByte
  command : Command
  payload : List Nat
  deriving Repr, DecidableEq

/-- lib.rs `start_transaction`: the packet it sends -/
def start_transaction_trace : List SentPacket :=
  [⟨.Zero, .TransactionStart, []⟩]

/-- lib.rs `end_transaction`: the packet it sends -/
def end_transaction_trace : List SentPacket :=
  [⟨.Zero, .TransactionEnd, []⟩]

/-- lib.rs `set_led_animation`: the packet sequence it sends when every
transport call succeeds -/
def set_led_animation_trace (mode : LightingMode) (brightness : Brightness)
    (speed : Speed) (color : OwnRGB8) (rainbow : Bool) : List SentPacket :=
  start_transaction_trace ++
    [⟨.One, .SetAnimation,
        (LedAnimationPayload.new mode brightness speed color rainbow).toVec⟩,
     ⟨.Zero, .SetAnimation, [0x01, 0x18, 0x00, 0x55, 0x01]⟩] ++
    end_transaction_trace

/-- lib.rs `set_custom_colors`: the packet sequence it sends when every
transport call succeeds.  It first applies the Custom animation (its own
start/end transaction inside `set_led_animation`), then sends one
SetCustomLED packet per chunk of `get_payloads`. -/
def set_custom_colors_trace (key_leds : CustomKeyLeds) :
    Except String (List SentPacket) :=
  match key_leds.get_payloads with
  | .error e => .error e
  | .ok payloads =>
      .ok (set_led_animation_trace .Custom .Full .Slow OwnRGB8.default false
        ++ payloads.map (fun p => ⟨.Zero, .SetCustomLED, p.toVec⟩))

/-- the command bytes of a trace, `[]` when the trace construction failed -/
def traceCommands (t : Except String (List SentPacket)) : List Command :=
  match t with
  | .ok tr => tr.map SentPacket.command
  | .error _ => []

/-- whether every SetCustomLED packet in the command sequence lies between
some earlier TransactionStart and some later TransactionEnd -/
def customChunksBracketed (cs : List Command) : Bool :=
  cs.enum.all (fun p =>
    p.2 ≠ Command.SetCustomLED ||
      ((cs.take p.1).any (fun c => c = Command.TransactionStart) &&
        (cs.drop (p.1 + 1)).any (fun c => c = Command.TransactionEnd)))

theorem chunksOf_nil (n : Nat) : chunksOf n [] = [] := by
  rw [chunksOf]
  simp

theorem chunksOf_cons (n : Nat) (l : List Nat) (hn : n ≠ 0) (hl : l ≠ []) :
    chunksOf n l = l.take n :: chunksOf n (l.drop n) := by
  rw [chunksOf]
  simp [hn, hl]

theorem chunksOf_flatten (n : Nat) (hn : 0 < n) (l : List Nat) :
    (chunksOf n l).flatten = l := by
  by_cases hl : l = []
  · subst hl
    rw [chunksOf_nil]
    rfl
  · rw [chunksOf_cons n l (by omega) hl]
    rw [List.flatten_cons, chunksOf_flatten n hn (l.drop n)]
    exact List.take_append_drop n l
termination_by l.length
decreasing_by
  simp only [List.length_drop]
  have h1 : l.length ≠ 0 := fun hc => hl (List.eq_nil_of_length_eq_zero hc)
  omega

theorem chunksOf_length (n : Nat) (hn : 0 < n) (l : List Nat) :
    (chunksOf n l).length = (l.length + (n - 1)) / n := by
  by_cases hl : l = []
  · subst hl
    rw [chunksOf_nil]
    simp [Nat.div_eq_of_lt (by omega : n - 1 < n)]
  · rw [chunksOf_cons n l (by omega) hl]
    rw [List.length_cons, chunksOf_length n hn (l.drop n), List.length_drop]
    have h1 : l.length ≠ 0 := fun hc => hl (List.eq_nil_of_length_eq_zero hc)
    by_cases hm : n ≤ l.length
    · have e1 : l.length + (n - 1) = (l.length - n + (n - 1)) + n := by omega
      rw [e1, Nat.add_div_right _ hn]
    · have e2 : l.length - n = 0 := by omega
      have e3 : l.length + (n - 1) = (l.length - 1) + n := by omega
      rw [e2, e3, Nat.add_div_right _ hn,
        Nat.div_eq_of_lt (by omega : l.length - 1 < n),
        Nat.div_eq_of_lt (by omega : 0 + (n - 1) < n)]
termination_by l.length
decreasing_by
  simp only [List.length_drop]
  have h1 : l.length ≠ 0 := fun hc => hl (List.eq_nil_of_length_eq_zero hc)
  omega

theorem chunksOf_getElem (n : Nat) (hn : 0 < n) (l : List Nat) (i : Nat)
    (h : i < (chunksOf n l).length) :
    (chunksOf n l)[i] = (l.drop (i * n)).take n := by
  by_cases hl : l = []
  · subst hl
    rw [chunksOf_nil] at h
    simp at h
  · have h' : i < (l.take n :: chunksOf n (l.drop n)).length := by
      rw [← chunksOf_cons n l (by omega) hl]
      exact h
    simp only [chunksOf_cons n l (by omega) hl]
    cases i with
    | zero => simp
    | succ j =>
        simp only [List.getElem_cons_succ]
        rw [chunksOf_getElem n hn (l.drop n) j
          (by simpa using Nat.lt_of_succ_lt_succ h')]
        rw [List.drop_drop]
        have e1 : n + j * n = (j + 1) * n := by ring
        rw [e1]
termination_by l.length
decreasing_by
  simp only [List.length_drop]
  have h1 : l.length ≠ 0 := fun hc => hl (List.eq_nil_of_length_eq_zero hc)
  omega

theorem CustomKeyLeds.toVec_length (s : CustomKeyLeds) :
    s.toVec.length = 3 * s.key_leds.length := by
  rw [CustomKeyLeds.toVec, List.length_flatten, List.map_map]
  have e1 : (List.length ∘ OwnRGB8.toVec) = fun _ => 3 := by
    funext c
    rfl
  rw [e1, List.map_const', List.sum_replicate, smul_eq_mul, mul_comm]

theorem CustomKeyLeds.get_payloads_eq (s : CustomKeyLeds) :
    s.get_payloads = .ok s.payloads := rfl

theorem CustomKeyLeds.payloads_eq (s : CustomKeyLeds) :
    s.payloads =
      (chunksOf 56 s.toVec).enum.map (fun p => mkCustomPayload p.1 p.2) := rfl

theorem CustomKeyLeds.payloads_map_data (s : CustomKeyLeds) :
    s.payloads.map LedCustomPayload.key_leds_data = chunksOf 56 s.toVec := by
  rw [CustomKeyLeds.payloads_eq, List.map_map]
  have e1 : (LedCustomPayload.key_leds_data ∘ fun p : Nat × List Nat =>
      mkCustomPayload p.1 p.2) = Prod.snd := by
    funext p
    simp only [Function.comp_apply, mkCustomPayload]
    split <;> rfl
  rw [e1, List.enum_map_snd]

theorem CustomKeyLeds.payloads_length (s : CustomKeyLeds) :
    s.payloads.length = (s.toVec.length + 55) / 56 := by
  rw [CustomKeyLeds.payloads_eq, List.length_map, List.enum_length,
    chunksOf_length 56 (by norm_num)]

theorem CustomKeyLeds.payloads_getElem (s : CustomKeyLeds) (i : Nat)
    (h : i < s.payloads.length) :
    s.payloads[i] = mkCustomPayload i ((s.toVec.drop (i * 56)).take 56) := by
  have h3 : i < (chunksOf 56 s.toVec).length := by
    have h2 := h
    rw [CustomKeyLeds.payloads_eq] at h2
    simpa using h2
  simp only [CustomKeyLeds.payloads_eq, List.getElem_map, List.getElem_enum]
  rw [chunksOf_getElem 56 (by norm_num) s.toVec i h3]

theorem foldl_wrap_eq_sum (data : List Nat) (acc : Nat)
    (h : acc + data.sum < 4294967296) :
    data.foldl (fun a b => (a + b) % 4294967296) acc = acc + data.sum := by
  induction data generalizing acc with
  | nil => simp
  | cons b t ih =>
      simp only [List.foldl_cons, List.sum_cons] at h ⊢
      rw [Nat.mod_eq_of_lt (by omega), ih (acc + b) (by omega)]
      omega

theorem command_code_lt (c : Command) : c.code < 256 := by
  cases c <;> simp [Command.code]

theorem calc_checksum_eq (c : Command) (data : List Nat)
    (hlen : data.length ≤ 60) (hbytes : ∀ b ∈ data, b < 256) :
    calc_checksum c data = (data.sum + c.code) % 256 := by
  have hsum : data.sum ≤ data.length * 255 := by
    have := List.sum_le_card_nsmul data 255
      (fun x hx => Nat.le_of_lt_succ (hbytes x hx))
    simpa [smul_eq_mul, mul_comm] using this
  have hcode : c.code < 256 := command_code_lt c
  rw [calc_checksum]
  rw [foldl_wrap_eq_sum data 0 (by omega), Nat.zero_add,
    Nat.mod_eq_of_lt (by omega)]
  have h255 : (0xFF : Nat) = 2 ^ 8 - 1 := by norm_num
  rw [h255, Nat.and_pow_two_sub_one_eq_mod]

/-- C2: for every command and payload of at most 60 bytes (each < 256), the
checksum is the byte sum plus the command code reduced mod 256; the empty
payload gives the command code mod 256; and `prepare_packet` emits the
64-byte packet whose byte 1 is exactly this checksum computed over the
zero-padded 60-byte payload region. -/
theorem C2_checksum (u : UnknownByte) (c : Command) (payload : List Nat)
    (hlen : payload.length ≤ 60) (hbytes : ∀ b ∈ payload, b < 256) :
    calc_checksum c payload = (payload.sum + c.code) % 256 ∧
    calc_checksum c [] = c.code % 256 ∧
    prepare_packet u c payload =
      .ok (0x04 :: ((payload.sum + c.code) % 256) :: u.code :: c.code ::
        (payload ++ List.replicate (60 - payload.length) 0)) := by
  have h1 := calc_checksum_eq c payload hlen hbytes
  refine ⟨h1, ?_, ?_⟩
  · have := calc_checksum_eq c [] (by simp) (by simp)
    simpa using this
  · have hne : ¬ payload.length > 60 := by omega
    have hdata : payload ++ (List.replicate 60 0).drop payload.length =
        payload ++ List.replicate (60 - payload.length) 0 := by
      rw [List.drop_replicate]
    have hsum0 : (payload ++ List.replicate (60 - payload.length) 0).sum =
        payload.sum := by
      simp [List.sum_append, List.sum_replicate]
    have hcksum : calc_checksum c
        (payload ++ List.replicate (60 - payload.length) 0) =
        (payload.sum + c.code) % 256 := by
      rw [calc_checksum_eq c _ (by simp; omega) ?_, hsum0]
      intro b hb
      rcases List.mem_append.mp hb with h | h
      · exact hbytes b h
      · have := List.eq_of_mem_replicate h
        omega
    simp only [prepare_packet, Packet.new, Packet.set_payload, hne,
      if_false, Packet.update_checksum, Packet.toVec]
    rw [hdata, hcksum]

/-- C2 witness: the captured Rust test vector `prepare_packet(Three,
TransactionStart, [0x42, 0x94])` begins `04 D7 03 01 42 94`. -/
theorem C2_checksum_witness :
    calc_checksum Command.TransactionStart [0x42, 0x94] =
      (([0x42, 0x94] : List Nat).sum + Command.TransactionStart.code) % 256 ∧
    calc_checksum Command.TransactionStart [] =
      Command.TransactionStart.code % 256 ∧
    prepare_packet UnknownByte.Three Command.TransactionStart [0x42, 0x94] =
      .ok (0x04 :: ((([0x42, 0x94] : List Nat).sum +
          Command.TransactionStart.code) % 256) ::
        UnknownByte.Three.code :: Command.TransactionStart.code ::
        ([0x42, 0x94] ++ List.replicate (60 - ([0x42, 0x94] :
          List Nat).length) 0)) :=
  C2_checksum UnknownByte.Three Command.TransactionStart [0x42, 0x94]
    (by decide) (by decide)

/-- C8: `set_payload` fails exactly when the supplied bytes exceed 60, and
a failed call leaves the packet unchanged with the payload-too-large
error. -/
theorem C8_set_payload_error (p : Packet) (new_data : List Nat) :
    ((p.set_payload new_data).2 = .ok () ↔ new_data.length ≤ 60) ∧
    (60 < new_data.length →
      (p.set_payload new_data).1 = p ∧
      (p.set_payload new_data).2 = .error "Payload exceeds 60 bytes") := by
  by_cases h : new_data.length > 60
  · have e : p.set_payload new_data =
        (p, .error "Payload exceeds 60 bytes") := by
      simp only [Packet.set_payload, if_pos h]
    rw [e]
    refine ⟨⟨fun hc => ?_, fun hc => absurd h (by omega)⟩,
      fun _ => ⟨rfl, rfl⟩⟩
    exact absurd hc (by simp)
  · have e : p.set_payload new_data =
        ({ p with data := new_data ++ p.data.drop new_data.length },
          .ok ()) := by
      simp only [Packet.set_payload, if_neg h]
    rw [e]
    exact ⟨⟨fun _ => by omega, fun _ => rfl⟩, fun hc => absurd hc (by omega)⟩

/-- C8 witness: a 61-byte payload fails and leaves the packet unchanged. -/
theorem C8_set_payload_error_witness :
    ((Packet.new .Zero .TransactionStart).set_payload
        (List.replicate 61 5)).1 = Packet.new .Zero .TransactionStart ∧
    ((Packet.new .Zero .TransactionStart).set_payload
        (List.replicate 61 5)).2 = .error "Payload exceeds 60 bytes" :=
  (C8_set_payload_error (Packet.new .Zero .TransactionStart)
    (List.replicate 61 5)).2 (by decide)

/-- a packet whose 60-byte payload region is all ones, obtained through
`set_payload` on a fresh packet -/
def packetAllOnes : Packet :=
  ((Packet.new .Zero .TransactionStart).set_payload
    (List.replicate 60 1)).1

/-- C7 counterexample: on a packet whose region holds nonzero bytes,
`set_payload []` succeeds yet leaves the region all ones - the bytes
beyond the copied payload are not zeroed, contradicting the claim that the
remainder up to index 59 is zero for every packet. -/
theorem C7_counterexample :
    (packetAllOnes.set_payload []).2 = .ok () ∧
    (packetAllOnes.set_payload []).1.data = List.replicate 60 1 ∧
    List.replicate 60 1 ≠ ([] : List Nat) ++ List.replicate 60 0 := by
  refine ⟨rfl, by decide, by decide⟩

/-- C7 amended: `set_payload` with at most 60 bytes succeeds and copies the
bytes left-aligned, leaving the bytes from the payload length up to index
59 unchanged; the remainder is zero when the packet is freshly
constructed (whose region `Packet.new` zero-fills). -/
theorem C7_set_payload (p : Packet) (u : UnknownByte) (c : Command)
    (new_data : List Nat) (h : new_data.length ≤ 60) :
    (p.set_payload new_data).2 = .ok () ∧
    (p.set_payload new_data).1.data =
      new_data ++ p.data.drop new_data.length ∧
    ((Packet.new u c).set_payload new_data).1.data =
      new_data ++ List.replicate (60 - new_data.length) 0 := by
  have hne : ¬ new_data.length > 60 := by omega
  refine ⟨?_, ?_, ?_⟩
  · simp only [Packet.set_payload, if_neg hne]
  · simp only [Packet.set_payload, if_neg hne]
  · have hd : (Packet.new u c).data = List.replicate 60 0 := rfl
    simp only [Packet.set_payload, if_neg hne, hd, List.drop_replicate]

/-- C7 witness: writing `[7]` over the all-ones packet leaves bytes 1-59
at one, and over a fresh packet leaves them at zero. -/
theorem C7_set_payload_witness :
    (packetAllOnes.set_payload [7]).2 = .ok () ∧
    (packetAllOnes.set_payload [7]).1.data =
      [7] ++ packetAllOnes.data.drop 1 ∧
    ((Packet.new .Zero .TransactionStart).set_payload [7]).1.data =
      [7] ++ List.replicate (60 - 1) 0 :=
  C7_set_payload packetAllOnes .Zero .TransactionStart [7] (by decide)

/-- C4 counterexample: `from_leds` accepts a one-element list and yields a
state holding exactly one color - it is not padded to 126 entries. -/
theorem C4_counterexample :
    CustomKeyLeds.from_leds [⟨1, 2, 3⟩] =
      .ok { key_leds := [⟨1, 2, 3⟩] } ∧
    ({ key_leds := [⟨1, 2, 3⟩] } : CustomKeyLeds).key_leds.length = 1 ∧
    (1 : Nat) ≠ 126 := by
  refine ⟨rfl, rfl, by decide⟩

/-- C4 amended: `new` yields 126 default (off) colors; `from_leds` fails
exactly when given more than 126 entries; a shorter list is accepted and
stored as-is, so the resulting state has the length of the input list - it is
not padded to 126. -/
theorem C4_from_leds (l : List OwnRGB8) :
    CustomKeyLeds.new.key_leds = List.replicate 126 OwnRGB8.default ∧
    ((CustomKeyLeds.from_leds l).isOk = true ↔ l.length ≤ 126) ∧
    (l.length ≤ 126 → CustomKeyLeds.from_leds l = .ok { key_leds := l }) ∧
    (126 < l.length →
      CustomKeyLeds.from_leds l = .error "Invalid number of key leds") := by
  refine ⟨rfl, ?_, ?_, ?_⟩
  · by_cases h : l.length > 126
    · have e : CustomKeyLeds.from_leds l =
          .error "Invalid number of key leds" := by
        simp only [CustomKeyLeds.from_leds, CustomKeyLeds.TOTAL_KEYS,
          if_pos h]
      rw [e]
      constructor
      · intro hc
        simp [Except.isOk, Except.toBool] at hc
      · intro hc
        omega
    · have e : CustomKeyLeds.from_leds l = .ok { key_leds := l } := by
        simp only [CustomKeyLeds.from_leds, CustomKeyLeds.TOTAL_KEYS,
          if_neg h]
      rw [e]
      constructor
      · intro _
        omega
      · intro _
        rfl
  · intro h
    have h' : ¬ l.length > 126 := by omega
    simp only [CustomKeyLeds.from_leds, CustomKeyLeds.TOTAL_KEYS, if_neg h']
  · intro h
    simp only [CustomKeyLeds.from_leds, CustomKeyLeds.TOTAL_KEYS,
      if_pos (show l.length > 126 from h)]

/-- C4 witness: 127 entries are rejected. -/
theorem C4_from_leds_witness :
    CustomKeyLeds.from_leds (List.replicate 127 OwnRGB8.default) =
      .error "Invalid number of key leds" :=
  (C4_from_leds (List.replicate 127 OwnRGB8.default)).2.2.2 (by simp)

/-- C5 counterexample: parsing is not case-insensitive - the capitalised
variants of canonical aliases are rejected by all three parsers. -/
theorem C5_counterexample :
    LightingMode.fromStr "Wave" = .error "Invalid mode supplied: Wave" ∧
    Speed.fromStr "VERY_SLOW" = .error "Invalid mode supplied: VERY_SLOW" ∧
    Brightness.fromStr "Full" = .error "Invalid mode supplied: Full" := by
  refine ⟨rfl, rfl, rfl⟩

/-- the canonical textual alias of each LightingMode, as matched by the
source `FromStr` implementation -/
def LightingMode.canonicalAlias : LightingMode → String
  | .Wave => "wave"
  | .Spectrum => "spectrum"
  | .Breathing => "breathing"
  | .Static => "static"
  | .Radar => "radar"
  | .Vortex => "vortex"
  | .Fire => "fire"
  | .Stars => "stars"
  | .Rain => "rain"
  | .Custom => "custom"
  | .Rolling => "rolling"
  | .Curve => "curve"
  | .WaveMid => "wave_mid"
  | .Scan => "scan"
  | .Radiation => "radiation"
  | .Ripples => "ripples"
  | .SingleKey => "single_key"

/-- the canonical textual alias of each Speed -/
def Speed.canonicalAlias : Speed → String
  | .VeryFast => "very_fast"
  | .Fast => "fast"
  | .Medium => "medium"
  | .Slow => "slow"
  | .VerySlow => "very_slow"

/-- the canonical textual alias of each Brightness -/
def Brightness.canonicalAlias : Brightness → String
  | .Off => "off"
  | .Low => "low"
  | .Medium => "medium"
  | .High => "high"
  | .Full => "full"

/-- the complete list of canonical aliases accepted by the LightingMode
parse function, one per member in source match-arm order -/
def LightingMode.aliases : List String :=
  ["wave", "spectrum", "breathing", "static", "radar", "vortex", "fire",
    "stars", "rain", "custom", "rolling", "curve", "wave_mid", "scan",
    "radiation", "ripples", "single_key"]

/-- the complete list of canonical aliases accepted by the Speed parse
function -/
def Speed.aliases : List String :=
  ["very_slow", "slow", "medium", "fast", "very_fast"]

/-- the complete list of canonical aliases accepted by the Brightness parse
function -/
def Brightness.aliases : List String :=
  ["off", "low", "medium", "high", "full"]

theorem lightingMode_fromStr_isOk_iff (s : String) :
    (LightingMode.fromStr s).isOk = true ↔ s ∈ LightingMode.aliases := by
  unfold LightingMode.fromStr
  split <;> simp_all [Except.isOk, Except.toBool, LightingMode.aliases]

theorem speed_fromStr_isOk_iff (s : String) :
    (Speed.fromStr s).isOk = true ↔ s ∈ Speed.aliases := by
  unfold Speed.fromStr
  split <;> simp_all [Except.isOk, Except.toBool, Speed.aliases]

theorem brightness_fromStr_isOk_iff (s : String) :
    (Brightness.fromStr s).isOk = true ↔ s ∈ Brightness.aliases := by
  unfold Brightness.fromStr
  split <;> simp_all [Except.isOk, Except.toBool, Brightness.aliases]

theorem lightingMode_fromStr_not_mem (s : String)
    (h : s ∉ LightingMode.aliases) :
    LightingMode.fromStr s = .error ("Invalid mode supplied: " ++ s) := by
  unfold LightingMode.fromStr
  split <;> simp_all [LightingMode.aliases]

theorem speed_fromStr_not_mem (s : String) (h : s ∉ Speed.aliases) :
    Speed.fromStr s = .error ("Invalid mode supplied: " ++ s) := by
  unfold Speed.fromStr
  split <;> simp_all [Speed.aliases]

theorem brightness_fromStr_not_mem (s : String) (h : s ∉ Brightness.aliases) :
    Brightness.fromStr s = .error ("Invalid mode supplied: " ++ s) := by
  unfold Brightness.fromStr
  split <;> simp_all [Brightness.aliases]

/-- C5 amended: parsing is case-sensitive exact matching - the canonical
lowercase alias of every member parses to that member and belongs to the
complete accepted-alias list of its enumeration; for EVERY string, each of
the three parsers succeeds exactly when the string is in that complete
list, and every string outside it (in particular "bogus" and the
other-case variants "Wave", "VERY_SLOW", "Full") fails with the
invalid-alias error; "wave", "very_slow" and "full" parse to Wave,
VerySlow and Full. -/
theorem C5_alias_parsing (m : LightingMode) (sp : Speed) (b : Brightness)
    (s : String) :
    LightingMode.fromStr m.canonicalAlias = .ok m ∧
    Speed.fromStr sp.canonicalAlias = .ok sp ∧
    Brightness.fromStr b.canonicalAlias = .ok b ∧
    m.canonicalAlias ∈ LightingMode.aliases ∧
    sp.canonicalAlias ∈ Speed.aliases ∧
    b.canonicalAlias ∈ Brightness.aliases ∧
    ((LightingMode.fromStr s).isOk = true ↔ s ∈ LightingMode.aliases) ∧
    ((Speed.fromStr s).isOk = true ↔ s ∈ Speed.aliases) ∧
    ((Brightness.fromStr s).isOk = true ↔ s ∈ Brightness.aliases) ∧
    (s ∉ LightingMode.aliases →
      LightingMode.fromStr s = .error ("Invalid mode supplied: " ++ s)) ∧
    (s ∉ Speed.aliases →
      Speed.fromStr s = .error ("Invalid mode supplied: " ++ s)) ∧
    (s ∉ Brightness.aliases →
      Brightness.fromStr s = .error ("Invalid mode supplied: " ++ s)) ∧
    LightingMode.fromStr "wave" = .ok .Wave ∧
    Speed.fromStr "very_slow" = .ok .VerySlow ∧
    Brightness.fromStr "full" = .ok .Full ∧
    LightingMode.fromStr "bogus" = .error "Invalid mode supplied: bogus" ∧
    Speed.fromStr "bogus" = .error "Invalid mode supplied: bogus" ∧
    Brightness.fromStr "bogus" = .error "Invalid mode supplied: bogus" ∧
    (LightingMode.fromStr "Wave").isOk = false ∧
    (Speed.fromStr "VERY_SLOW").isOk = false ∧
    (Brightness.fromStr "Full").isOk = false := by
  refine ⟨?_, ?_, ?_, ?_, ?_, ?_,
    lightingMode_fromStr_isOk_iff s, speed_fromStr_isOk_iff s,
    brightness_fromStr_isOk_iff s,
    lightingMode_fromStr_not_mem s, speed_fromStr_not_mem s,
    brightness_fromStr_not_mem s,
    rfl, rfl, rfl, rfl, rfl, rfl, rfl, rfl, rfl⟩
  · cases m <;> rfl
  · cases sp <;> rfl
  · cases b <;> rfl
  · cases m <;> decide
  · cases sp <;> decide
  · cases b <;> decide

/-- C5 witness: the unrecognized alias "bogus" is outside every accepted
list and is rejected by all three parsers. -/
theorem C5_alias_parsing_witness :
    LightingMode.fromStr "bogus" =
      .error ("Invalid mode supplied: " ++ "bogus") ∧
    Speed.fromStr "bogus" = .error ("Invalid mode supplied: " ++ "bogus") ∧
    Brightness.fromStr "bogus" =
      .error ("Invalid mode supplied: " ++ "bogus") := by
  have h := C5_alias_parsing .Wave .VerySlow .Full "bogus"
  exact ⟨h.2.2.2.2.2.2.2.2.2.1 (by decide),
    h.2.2.2.2.2.2.2.2.2.2.1 (by decide),
    h.2.2.2.2.2.2.2.2.2.2.2.1 (by decide)⟩

/-- C6: the animation payload encoder emits exactly 13 bytes in the fixed
order unknown[5] | mode | brightness | speed | pad | rainbow | R | G | B;
the Vortex/Full/VerySlow/(244,255,100)/rainbow-off configuration encodes to
the captured byte vector, and toggling rainbow changes only byte index 9
from 0 to 1. -/
theorem C6_animation_payload (mode : LightingMode) (brightness : Brightness)
    (speed : Speed) (color : OwnRGB8) (rainbow : Bool) :
    (LedAnimationPayload.new mode brightness speed color rainbow).toVec =
      [0x09, 0x00, 0x00, 0x55, 0x00, mode.code, brightness.code, speed.code,
        0, if rainbow then 1 else 0, color.r, color.g, color.b] ∧
    ((LedAnimationPayload.new mode brightness speed color
        rainbow).toVec).length = 13 ∧
    (LedAnimationPayload.new .Vortex .Full .VerySlow ⟨244, 255, 100⟩
        false).toVec =
      [0x09, 0x00, 0x00, 0x55, 0x00, 0x05, 0x04, 0x04, 0x00, 0x00, 0xF4,
        0xFF, 0x64] ∧
    (LedAnimationPayload.new mode brightness speed color true).toVec =
      ((LedAnimationPayload.new mode brightness speed color
        false).toVec).set 9 1 := by
  refine ⟨rfl, rfl, rfl, rfl⟩

/-- C9 counterexample: on a state built by `from_leds` from a single color,
`set_led` at index 1 fails even though 1 < 126 - the bound checked is the
actual stored length, not 126. -/
theorem C9_counterexample :
    CustomKeyLeds.from_leds [⟨9, 9, 9⟩] = .ok { key_leds := [⟨9, 9, 9⟩] } ∧
    ({ key_leds := [⟨9, 9, 9⟩] } : CustomKeyLeds).set_led 1 ⟨5, 5, 5⟩ =
      .error "Key index out of bounds" ∧
    (1 : Nat) < 126 := by
  refine ⟨rfl, rfl, by decide⟩

/-- C9 amended: `set_led` succeeds exactly when the index is below the
number of stored colors of the state (which is 126 for a full state such as
`new`); on success only the addressed position changes, and on a full
126-color state index 125 succeeds while any index of 126 or more
fails. -/
theorem C9_set_led (s : CustomKeyLeds) (i : Nat) (c : OwnRGB8) :
    ((s.set_led i c).isOk = true ↔ i < s.key_leds.length) ∧
    (i < s.key_leds.length →
      s.set_led i c = .ok { key_leds := s.key_leds.set i c } ∧
      ∀ j, j ≠ i → (s.key_leds.set i c)[j]? = s.key_leds[j]?) ∧
    (s.key_leds.length ≤ i →
      s.set_led i c = .error "Key index out of bounds") ∧
    (s.key_leds.length = 126 →
      ((s.set_led i c).isOk = true ↔ i < 126)) := by
  by_cases h : i ≥ s.key_leds.length
  · have e : s.set_led i c = .error "Key index out of bounds" := by
      simp only [CustomKeyLeds.set_led, if_pos h]
    rw [e]
    refine ⟨?_, fun hc => absurd hc (by omega), fun _ => rfl, fun hl => ?_⟩
    · constructor
      · intro hc
        simp [Except.isOk, Except.toBool] at hc
      · intro hc
        omega
    · rw [← hl]
      constructor
      · intro hc
        simp [Except.isOk, Except.toBool] at hc
      · intro hc
        omega
  · have e : s.set_led i c = .ok { key_leds := s.key_leds.set i c } := by
      simp only [CustomKeyLeds.set_led, if_neg h]
    rw [e]
    refine ⟨?_, fun _ => ⟨rfl, fun j hj => ?_⟩, fun hc => absurd hc (by omega),
      fun hl => ?_⟩
    · exact ⟨fun _ => by omega, fun _ => rfl⟩
    · exact List.getElem?_set_ne (fun hc => hj hc.symm)
    · rw [← hl]
      exact ⟨fun _ => by omega, fun _ => rfl⟩

/-- C9 witness: on the full 126-key state, setting index 125 succeeds. -/
theorem C9_set_led_witness :
    CustomKeyLeds.new.set_led 125 ⟨1, 2, 3⟩ =
      .ok { key_leds := CustomKeyLeds.new.key_leds.set 125 ⟨1, 2, 3⟩ } :=
  ((C9_set_led CustomKeyLeds.new 125 ⟨1, 2, 3⟩).2.1
    (by simp [CustomKeyLeds.new, CustomKeyLeds.TOTAL_KEYS])).1

theorem mkCustomPayload_key_leds_data (i : Nat) (chunk : List Nat) :
    (mkCustomPayload i chunk).key_leds_data = chunk := by
  simp only [mkCustomPayload]
  split <;> rfl

theorem mkCustomPayload_padding (i : Nat) (chunk : List Nat) :
    (mkCustomPayload i chunk).padding = 0 := by
  simp only [mkCustomPayload]
  split <;> rfl

/-- C1: on a 126-color state, `get_payloads` returns exactly 7 chunks in
index order whose data covers all 378 serialized color bytes; chunk `i`
carries the bytes from offset `i*56` up to `min((i+1)*56, 378)`, its
computed data_len is that byte count, its data_offset is `(i*56) mod 256`,
its secondary_keys flag is 1 exactly when `i*56 > 255`, and its padding is
0. -/
theorem C1_chunking (s : CustomKeyLeds) (hs : s.key_leds.length = 126) :
    s.get_payloads = .ok s.payloads ∧
    s.toVec.length = 378 ∧
    s.payloads.length = 7 ∧
    (s.payloads.map LedCustomPayload.key_leds_data).flatten = s.toVec ∧
    ∀ i, (h : i < s.payloads.length) →
      s.payloads[i].key_leds_data = (s.toVec.drop (i * 56)).take 56 ∧
      s.payloads[i].data_len = min ((i + 1) * 56) 378 - i * 56 ∧
      s.payloads[i].data_offset = (i * 56) % 256 ∧
      s.payloads[i].secondary_keys = (if 255 < i * 56 then 1 else 0) ∧
      s.payloads[i].padding = 0 := by
  have hv : s.toVec.length = 378 := by
    rw [CustomKeyLeds.toVec_length, hs]
  have hlen : s.payloads.length = 7 := by
    rw [CustomKeyLeds.payloads_length, hv]
  refine ⟨CustomKeyLeds.get_payloads_eq s, hv, hlen, ?_, ?_⟩
  · rw [CustomKeyLeds.payloads_map_data]
    exact chunksOf_flatten 56 (by norm_num) s.toVec
  · intro i h
    have hi : i < 7 := by
      rw [← hlen]
      exact h
    rw [CustomKeyLeds.payloads_getElem s i h]
    have hdlen : ((s.toVec.drop (i * 56)).take 56).length =
        min ((i + 1) * 56) 378 - i * 56 := by
      simp only [List.length_take, List.length_drop, hv]
      omega
    refine ⟨mkCustomPayload_key_leds_data _ _, ?_, ?_, ?_,
      mkCustomPayload_padding _ _⟩
    · rw [LedCustomPayload.data_len, mkCustomPayload_key_leds_data, hdlen]
    · simp only [mkCustomPayload, CustomKeyLeds.CHUNK_SIZE]
      split
      · rfl
      · rename_i hle
        have : i * 56 < 256 := by omega
        rw [Nat.mod_eq_of_lt this]
    · simp only [mkCustomPayload, CustomKeyLeds.CHUNK_SIZE]
      split <;> rfl

/-- C1 witness: the blank 126-key state serializes to 378 bytes split into
7 chunks. -/
theorem C1_chunking_witness :
    CustomKeyLeds.new.toVec.length = 378 ∧
    CustomKeyLeds.new.payloads.length = 7 :=
  ⟨(C1_chunking CustomKeyLeds.new
      (by simp [CustomKeyLeds.new, CustomKeyLeds.TOTAL_KEYS])).2.1,
    (C1_chunking CustomKeyLeds.new
      (by simp [CustomKeyLeds.new, CustomKeyLeds.TOTAL_KEYS])).2.2.1⟩

/-- C10: `get_payloads` never fails - for every state, of any length, it
returns Ok with one chunk per 56-byte slice of the serialized color data,
in order, covering exactly the serialized bytes. -/
theorem C10_get_payloads_total (s : CustomKeyLeds) :
    s.get_payloads = .ok s.payloads ∧
    (s.get_payloads).isOk = true ∧
    s.payloads.length = (s.toVec.length + 55) / 56 ∧
    (s.payloads.map LedCustomPayload.key_leds_data).flatten = s.toVec ∧
    ∀ i, (h : i < s.payloads.length) →
      s.payloads[i].key_leds_data = (s.toVec.drop (i * 56)).take 56 := by
  refine ⟨CustomKeyLeds.get_payloads_eq s, rfl,
    CustomKeyLeds.payloads_length s, ?_, ?_⟩
  · rw [CustomKeyLeds.payloads_map_data]
    exact chunksOf_flatten 56 (by norm_num) s.toVec
  · intro i h
    rw [CustomKeyLeds.payloads_getElem s i h,
      mkCustomPayload_key_leds_data]

/-- C10 witness: a two-color state (6 serialized bytes, fewer than the full
126 keys) still succeeds, with a single chunk. -/
theorem C10_get_payloads_total_witness :
    ({ key_leds := [⟨1, 2, 3⟩, ⟨4, 5, 6⟩] } : CustomKeyLeds).get_payloads =
      .ok ({ key_leds := [⟨1, 2, 3⟩, ⟨4, 5, 6⟩] } : CustomKeyLeds).payloads ∧
    (({ key_leds := [⟨1, 2, 3⟩, ⟨4, 5, 6⟩] } :
      CustomKeyLeds).get_payloads).isOk = true ∧
    ({ key_leds := [⟨1, 2, 3⟩, ⟨4, 5, 6⟩] } :
      CustomKeyLeds).payloads.length =
      (({ key_leds := [⟨1, 2, 3⟩, ⟨4, 5, 6⟩] } :
        CustomKeyLeds).toVec.length + 55) / 56 :=
  ⟨(C10_get_payloads_total _).1, (C10_get_payloads_total _).2.1,
    (C10_get_payloads_total _).2.2.1⟩

/-- C3 evidence: the packet sequence of `set_custom_colors` on the blank
state is the animation transaction (start, two SetAnimation packets, end)
followed by the 7 SetCustomLED chunk packets after the TransactionEnd;
no SetCustomLED packet lies between a TransactionStart and a later
TransactionEnd. -/
theorem C3_custom_colors_unbracketed :
    traceCommands (set_custom_colors_trace CustomKeyLeds.new) =
      [Command.TransactionStart, Command.SetAnimation, Command.SetAnimation,
        Command.TransactionEnd] ++ List.replicate 7 Command.SetCustomLED ∧
    customChunksBracketed
      (traceCommands (set_custom_colors_trace CustomKeyLeds.new)) = false := by
  have hlen : CustomKeyLeds.new.payloads.length = 7 := by
    rw [CustomKeyLeds.payloads_length, CustomKeyLeds.toVec_length]
    simp [CustomKeyLeds.new, CustomKeyLeds.TOTAL_KEYS]
  have h1 : set_custom_colors_trace CustomKeyLeds.new =
      .ok (set_led_animation_trace .Custom .Full .Slow OwnRGB8.default false
        ++ CustomKeyLeds.new.payloads.map
          (fun p => ⟨.Zero, .SetCustomLED, p.toVec⟩)) := rfl
  have h2 : traceCommands (set_custom_colors_trace CustomKeyLeds.new) =
      [Command.TransactionStart, Command.SetAnimation, Command.SetAnimation,
        Command.TransactionEnd] ++ List.replicate 7 Command.SetCustomLED := by
    rw [h1]
    simp only [traceCommands, List.map_append, List.map_map]
    congr 1
    have e1 : (SentPacket.command ∘ fun p : LedCustomPayload =>
        (⟨.Zero, .SetCustomLED, p.toVec⟩ : SentPacket)) =
        fun _ => Command.SetCustomLED := by
      funext p
      rfl
    rw [e1, List.map_const', hlen]
  refine ⟨h2, ?_⟩
  rw [h2]
  decide

end CherryRgb
